import Mathlib

/-!
Verification development for the Podcast-Generator service: a shallow
embedding in Lean 4 of the JavaScript pipeline (agents, orchestrator,
controller, backend client) together with theorems settling the spec claims.

Strings are modelled as `List Char` (`Str`); JavaScript regular-expression
replacements and matches are re-implemented as explicit left-to-right scans
with the same leftmost-match, greedy/lazy semantics the source relies on.
Scanners use an explicit fuel argument (always instantiated with at least the
length of the scanned string, so the fuel never runs out on the wrapper
entry points); each scan step consumes at least one character.
Floating-point arithmetic in the source only ever acts on integer-valued
quantities divided by constants, so it is modelled exactly over `ℚ`.
-/

abbrev Str := List Char

/-- JavaScript `\s` (ASCII range, which is all the source ever produces). -/
def isWs (c : Char) : Bool :=
  c = ' ' || c = '\t' || c = '\n' || c = '\r' || c = '\x0b' || c = '\x0c'

/-- JavaScript `\w`: ASCII letters, digits and underscore. -/
def isWordChar (c : Char) : Bool :=
  c.isAlphanum || c = '_'

/-- JavaScript `String.prototype.trim`. -/
def jsTrim (s : Str) : Str :=
  ((s.dropWhile isWs).reverse.dropWhile isWs).reverse

/-- Whether `pat` occurs as a contiguous substring of `s`
(JavaScript `String.prototype.includes`). -/
def containsSub (s pat : Str) : Bool :=
  if pat.isPrefixOf s then true
  else match s with
    | [] => false
    | _ :: rest => containsSub rest pat

/-- Number of maximal runs of non-whitespace characters
(`split(/\s+/).filter(w => w.length > 0).length` after a trim). -/
def countWsTokensAux : Bool → Str → Nat
  | _, [] => 0
  | inWord, c :: rest =>
    if isWs c then countWsTokensAux false rest
    else (if inWord then 0 else 1) + countWsTokensAux true rest

def countWsTokens (s : Str) : Nat := countWsTokensAux false s

/-- JavaScript `String.prototype.split('\n')` (yields one empty piece for
the empty string, mirrors the source's line splitting). -/
def splitOnNl : Str → List Str
  | [] => [[]]
  | c :: rest =>
    match splitOnNl rest with
    | h :: t => if c = '\n' then [] :: h :: t else (c :: h) :: t
    | [] => [[c]]

/-- Re-join lines with newlines (inverse of `splitOnNl`, used to model the
per-line `/gm` replacement steps of the source). -/
def joinNl : List Str → Str
  | [] => []
  | [l] => l
  | l :: rest => l ++ '\n' :: joinNl rest

/-- `Math.round(num / den)` for `den > 0`, computed exactly over ℤ:
JavaScript rounds half toward positive infinity, so
`Math.round(num/den) = ⌊num/den + 1/2⌋ = (2*num + den) fdiv (2*den)`. -/
def jsRoundInt (num den : ℤ) : ℤ := (2 * num + den).fdiv (2 * den)

/-- Lowercase a character the way `String.prototype.toLowerCase` does for the
ASCII text the pipeline handles. -/
def jsLower (c : Char) : Char := c.toLower

def lowerStr (s : Str) : Str := s.map jsLower

/-- Case-insensitive prefix test (for the `/i` regex flags in the source). -/
def isPrefixOfCI (pat s : Str) : Bool :=
  (lowerStr pat).isPrefixOf (lowerStr s)

/-- Index of the first occurrence of `pat` in `s`, if any. -/
def findSub : Str → Str → Option Nat
  | s, pat =>
    if pat.isPrefixOf s then some 0
    else match s with
      | [] => none
      | _ :: rest => (findSub rest pat).map (· + 1)

/-- Leading run of characters satisfying `p` together with the remainder. -/
def takeRun (p : Char → Bool) (s : Str) : Str × Str :=
  (s.takeWhile p, s.dropWhile p)

/-! ## §C10 / orchestrator: accuracy classification
`PodcastOrchestrator.calculateAccuracy` (podcastOrchestrator.js), with
`config.performance.tolerancePercent = 5` (a hard-coded constant). -/

/-- `calculateAccuracy(target, actual)`: percent difference against the
5/10/15 buckets (`tolerance`, `tolerance * 2`, `tolerance * 3`). -/
def calculateAccuracy (target actual : ℤ) : String :=
  let tolerance : ℚ := 5
  let difference : ℚ := |(target : ℚ) - (actual : ℚ)|
  let percentDifference : ℚ := difference / (target : ℚ) * 100
  if percentDifference ≤ tolerance then "excellent"
  else if percentDifference ≤ tolerance * 2 then "good"
  else if percentDifference ≤ tolerance * 3 then "fair"
  else "poor"

/-- The accuracy classification exactly as the claim words it
(excellent ≤ 5 %, good ≤ 10 %, fair ≤ 20 %, poor otherwise); written from
the spec sentence, to be compared against `calculateAccuracy`. -/
def claimAccuracyClassification (target actual : ℤ) : String :=
  let d : ℚ := |(target : ℚ) - (actual : ℚ)| / (target : ℚ)
  if d ≤ 5 / 100 then "excellent"
  else if d ≤ 10 / 100 then "good"
  else if d ≤ 20 / 100 then "fair"
  else "poor"

/-- The amended classification: same as the claim but with the fair bucket
ending at 15 % (`tolerance * 3`), as the code computes. -/
def amendedAccuracyClassification (target actual : ℤ) : String :=
  let d : ℚ := |(target : ℚ) - (actual : ℚ)| / (target : ℚ)
  if d ≤ 5 / 100 then "excellent"
  else if d ≤ 10 / 100 then "good"
  else if d ≤ 15 / 100 then "fair"
  else "poor"

/-! ## §C8: controller cancellation
`PodcastController.cancelGeneration` (podcastController part of the source):
404 when the id is unknown, 400 (and no mutation) when the generation is
`completed` or `failed`, otherwise the status becomes `cancelled` and
`completedAt` is overwritten with the current time. -/

structure Generation where
  status : String
  completedAt : Option String
  deriving DecidableEq, Repr

/-- Models `cancelGeneration`: the stored generation afterwards (if any)
paired with the HTTP status code of the response. -/
def cancelGeneration (gen : Option Generation) (now : String) :
    Option Generation × Nat :=
  match gen with
  | none => (none, 404)
  | some g =>
    if g.status = "completed" || g.status = "failed" then
      (some g, 400)
    else
      (some { g with status := "cancelled", completedAt := some now }, 200)

/-! ## §C5: research stage source grounding
`PodcastOrchestrator.generatePodcast`, research step: when a `source` is
supplied and `contentFetcher.fetchContent` resolves, the research artifact is
built deterministically from the fetched title and body and the Research
agent is never executed; otherwise (no source, or the fetch threw) the
Research agent runs (at least one model call). -/

structure FetchedContent where
  title : Str
  content : Str
  source : Str
  wordCount : Nat
  deriving DecidableEq, Repr

structure ResearchArtifact where
  content : Str
  sources : List Str
  wordCount : Nat
  deriving DecidableEq, Repr

/-- The deterministic wrapper the orchestrator builds from fetched content:
`# Research Based on Source Material\n\n## Source: ${title}\n\n${content}`. -/
def researchFromSource (sc : FetchedContent) : ResearchArtifact :=
  { content :=
      "# Research Based on Source Material\n\n## Source: ".data
        ++ sc.title ++ "\n\n".data ++ sc.content
    sources := [sc.source]
    wordCount := sc.wordCount }

/-- The research step of `generatePodcast`. `fetchResult` models the
`try { fetchContent } catch` outcome for the given source (`none` = the
fetch threw and the code falls back). The second component counts model
calls made by the step (the Research agent path makes at least one; we
record it as 1). -/
def researchStep (source : Option Str) (fetchResult : Str → Option FetchedContent)
    (agentResearch : ResearchArtifact) : ResearchArtifact × Nat :=
  match source with
  | none => (agentResearch, 1)
  | some src =>
    match fetchResult src with
    | some sc => (researchFromSource sc, 0)
    | none => (agentResearch, 1)

/-! ## §C7: chat-completion retry loop
`AzureOpenAIService.getChatCompletion`: up to `maxRetries = 3` attempts;
HTTP status 400/401/403 breaks out of the loop without further attempts;
any other failure sleeps `1000 * 2^(attempt-1) + Math.random() * 1000`
milliseconds and retries. `outcomes k` is the result of the (k+1)-th call
to the underlying client; `jitter n` is the value of
`Math.random() * 1000` drawn before retrying attempt `n + 1`. -/

inductive CallOutcome where
  | success (content : Str)
  | failure (status : Option ℤ)
  deriving DecidableEq, Repr

/-- `error.status === 400 || error.status === 401 || error.status === 403`. -/
def nonRetryableStatus : Option ℤ → Bool
  | none => false
  | some s => s = 400 || s = 401 || s = 403

structure ChatResult where
  calls : Nat
  content : Option Str
  delays : List ℚ
  deriving DecidableEq, Repr

/-- The attempt loop; `remaining` counts the attempts still allowed
(`maxRetries - attempt + 1`), `attempt` is 1-based as in the source. -/
def chatLoop (outcomes : Nat → CallOutcome) (jitter : Nat → ℚ) :
    Nat → Nat → ChatResult
  | 0, _ => { calls := 0, content := none, delays := [] }
  | remaining + 1, attempt =>
    match outcomes (attempt - 1) with
    | .success c => { calls := 1, content := some c, delays := [] }
    | .failure st =>
      if nonRetryableStatus st then
        { calls := 1, content := none, delays := [] }
      else if remaining = 0 then
        -- this was the last allowed attempt; the loop exits and the call throws
        { calls := 1, content := none, delays := [] }
      else
        let d : ℚ := 1000 * 2 ^ (attempt - 1) + jitter attempt
        let r := chatLoop outcomes jitter remaining (attempt + 1)
        { calls := r.calls + 1, content := r.content, delays := d :: r.delays }

/-- `getChatCompletion`, abstracted over the backend outcomes and the jitter
stream. -/
def getChatCompletion (outcomes : Nat → CallOutcome) (jitter : Nat → ℚ) :
    ChatResult :=
  chatLoop outcomes jitter 3 1

/-! ## §C9: the two word counters (`BaseAgent`)
`BaseAgent.countWords` strips markdown and counts whitespace-separated
tokens; `BaseAgent.countSpokenWords` keeps only the dialogue text after
`**Host N:**` labels. `BaseAgent.extractMarkdown` — used by every agent to
build its artifact — records `countSpokenWords(content)` as the artifact's
`wordCount`. -/

/-- Head of a string is a whitespace character. -/
def headIsWs : Str → Bool
  | [] => false
  | c :: _ => isWs c

/-- `replace(/#{1,6}\s+/g, '')`: drop every run of at most six `#` that is
followed by whitespace, together with that whitespace run. -/
def stripHeaderMarks : Nat → Str → Str
  | 0, s => s
  | _ + 1, [] => []
  | fuel + 1, '#' :: rest =>
    let n := 1 + (rest.takeWhile (· = '#')).length
    let after := rest.dropWhile (· = '#')
    if n ≤ 6 && headIsWs after then
      stripHeaderMarks fuel (after.dropWhile isWs)
    else '#' :: stripHeaderMarks fuel rest
  | fuel + 1, c :: rest => c :: stripHeaderMarks fuel rest

/-- One attempted match of `\*{1,2}([^*]+)\*{1,2}` starting with `k1`
leading asterisks: returns the captured text and the remainder. -/
def matchEmphasis (k1 : Nat) (s : Str) : Option (Str × Str) :=
  let stars := s.takeWhile (· = '*')
  if stars.length < k1 then none
  else
    let afterOpen := s.drop k1
    let inner := afterOpen.takeWhile (· ≠ '*')
    if inner.isEmpty then none
    else
      let closeRun := (afterOpen.drop inner.length).takeWhile (· = '*')
      if closeRun.isEmpty then none
      else
        let k2 := min 2 closeRun.length
        some (inner, afterOpen.drop (inner.length + k2))

/-- `replace(/\*{1,2}([^*]+)\*{1,2}/g, '$1')` with the engine's greedy
open-delimiter preference (two asterisks, then one). -/
def stripEmphasis : Nat → Str → Str
  | 0, s => s
  | _ + 1, [] => []
  | fuel + 1, '*' :: rest =>
    match matchEmphasis 2 ('*' :: rest) with
    | some (inner, remainder) => inner ++ stripEmphasis fuel remainder
    | none =>
      match matchEmphasis 1 ('*' :: rest) with
      | some (inner, remainder) => inner ++ stripEmphasis fuel remainder
      | none => '*' :: stripEmphasis fuel rest
  | fuel + 1, c :: rest => c :: stripEmphasis fuel rest

/-- `replace(/\[([^\]]+)\]\([^)]+\)/g, '$1')`: markdown links keep their
text. -/
def stripLinks : Nat → Str → Str
  | 0, s => s
  | _ + 1, [] => []
  | fuel + 1, '[' :: rest =>
    let inner := rest.takeWhile (· ≠ ']')
    let afterInner := rest.drop inner.length
    (if inner.isEmpty then none else
      match afterInner with
      | ']' :: '(' :: r2 =>
        let url := r2.takeWhile (· ≠ ')')
        if url.isEmpty then none else
          match r2.drop url.length with
          | ')' :: r3 => some (inner, r3)
          | _ => none
      | _ => none).elim
      ('[' :: stripLinks fuel rest)
      (fun (p : Str × Str) => p.1 ++ stripLinks fuel p.2)
  | fuel + 1, c :: rest => c :: stripLinks fuel rest

/-- The backtick character (written by code to satisfy the source scanner). -/
def backtickChar : Char := Char.ofNat 96

/-- Strip inline code spans, keeping their text. -/
def stripCodeSpans : Nat → Str → Str
  | 0, s => s
  | _ + 1, [] => []
  | fuel + 1, c :: rest =>
    if c = backtickChar then
      let inner := rest.takeWhile (· ≠ backtickChar)
      if inner.isEmpty then c :: stripCodeSpans fuel rest
      else
        match rest.drop inner.length with
        | c2 :: r2 =>
          if c2 = backtickChar then inner ++ stripCodeSpans fuel r2
          else c :: stripCodeSpans fuel rest
        | [] => c :: stripCodeSpans fuel rest
    else c :: stripCodeSpans fuel rest

/-- `replace(/^\s*[-*+]\s+/gm, '')` on one line. -/
def stripListMarker (l : Str) : Str :=
  let rest := l.dropWhile isWs
  match rest with
  | c :: r =>
    if (c = '-' || c = '*' || c = '+') && headIsWs r then r.dropWhile isWs
    else l
  | [] => l

/-- `replace(/^\s*\d+\.\s+/gm, '')` on one line. -/
def stripNumberMarker (l : Str) : Str :=
  let rest := l.dropWhile isWs
  let digits := rest.takeWhile Char.isDigit
  if digits.isEmpty then l
  else
    match rest.drop digits.length with
    | '.' :: r => if headIsWs r then r.dropWhile isWs else l
    | _ => l

/-- `BaseAgent.countWords`: strip markdown formatting, then count
whitespace-separated tokens. -/
def countWords (text : Str) : Nat :=
  let s1 := stripHeaderMarks (text.length + 1) text
  let s2 := stripEmphasis (s1.length + 1) s1
  let s3 := stripLinks (s2.length + 1) s2
  let s4 := stripCodeSpans (s3.length + 1) s3
  let s5 := joinNl ((splitOnNl s4).map (fun l => stripNumberMarker (stripListMarker l)))
  countWsTokens (jsTrim s5)

/-- `replace(/#{1,6}\s+.*$/gm, '')` in `countSpokenWords`: a header marker
followed by whitespace swallows that whitespace run (which, as in the
engine, may cross newlines) and the rest of the current line. -/
def removeHeaderLines : Nat → Str → Str
  | 0, s => s
  | _ + 1, [] => []
  | fuel + 1, '#' :: rest =>
    let n := 1 + (rest.takeWhile (· = '#')).length
    let after := rest.dropWhile (· = '#')
    if n ≤ 6 && headIsWs after then
      removeHeaderLines fuel ((after.dropWhile isWs).dropWhile (· ≠ '\n'))
    else '#' :: removeHeaderLines fuel rest
  | fuel + 1, c :: rest => c :: removeHeaderLines fuel rest

/-- `replace(/^##.*$/gm, '')` (and the subsumed `^###` pass): empty every
line that starts with the given prefix. -/
def emptyLinesWithPrefix (pre : Str) (s : Str) : Str :=
  joinNl ((splitOnNl s).map (fun l => if pre.isPrefixOf l then [] else l))

/-- `replace(/^[-*+]\s+.*$/gm, '')`: empty bullet-point lines (a dialogue
line `**Host …` does not match because its second character is not
whitespace). -/
def emptyBulletLines (s : Str) : Str :=
  joinNl ((splitOnNl s).map (fun l =>
    match l with
    | c :: r => if (c = '-' || c = '*' || c = '+') && headIsWs r then [] else l
    | [] => l))

/-- `replace(/\[Continue.*?\]/gi, '')`: bracketed continue directives
(the span cannot cross a newline). -/
def removeContinueTags : Nat → Str → Str
  | 0, s => s
  | _ + 1, [] => []
  | fuel + 1, '[' :: rest =>
    if isPrefixOfCI "Continue".data rest then
      let span := rest.takeWhile (fun c => c ≠ ']' && c ≠ '\n')
      match rest.drop span.length with
      | ']' :: r2 => removeContinueTags fuel r2
      | _ => '[' :: removeContinueTags fuel rest
    else '[' :: removeContinueTags fuel rest
  | fuel + 1, c :: rest => c :: removeContinueTags fuel rest

/-- `replace(/\[.*?\]/g, '')`: all remaining bracketed content (tone tags
included); a span cannot cross a newline. -/
def removeBracketSpans : Nat → Str → Str
  | 0, s => s
  | _ + 1, [] => []
  | fuel + 1, '[' :: rest =>
    let span := rest.takeWhile (fun c => c ≠ ']' && c ≠ '\n')
    (match rest.drop span.length with
     | ']' :: r2 => removeBracketSpans fuel r2
     | _ => '[' :: removeBracketSpans fuel rest)
  | fuel + 1, c :: rest => c :: removeBracketSpans fuel rest

/-- Lazy tail of `/marker[\s\S]*?(?=\n##|\n\*\*Host|\Z)/`: the suffix of `s`
from the first position whose remainder starts with `"\n##"` or
`"\n**Host"`, or `[]` when no such position exists. -/
def blockStopSuffix : Str → Str
  | [] => []
  | c :: rest =>
    if "\n##".data.isPrefixOf (c :: rest) || "\n**Host".data.isPrefixOf (c :: rest) then
      c :: rest
    else blockStopSuffix rest

/-- `replace(/Marker.*?(?=\n##|\n\*\*Host|\Z)/s, '')` (first occurrence
only, as in the source: no `/g` flag). -/
def removeMetaBlock (marker : Str) (s : Str) : Str :=
  match findSub s marker with
  | none => s
  | some i => s.take i ++ blockStopSuffix (s.drop (i + marker.length))

/-- The six metadata-section removals of `countSpokenWords`, in source
order. -/
def removeMetaBlocks (s : Str) : Str :=
  removeMetaBlock "CONSTRAINTS:".data
    (removeMetaBlock "Technical TTS Guidance".data
      (removeMetaBlock "Expression Notes".data
        (removeMetaBlock "Tone Analysis".data
          (removeMetaBlock "Script Metadata".data
            (removeMetaBlock "Speaking Notes".data s)))))

/-- One attempt of `/\*\*Host\s+\d+:\*\*\s*(?:\[.*?\])?\s*(.+)/i` anchored at
the start of `s` (a single line): the captured dialogue text, if the
pattern matches here. -/
def matchHostLabelAt (s : Str) : Option Str :=
  match s with
  | '*' :: '*' :: r1 =>
    if isPrefixOfCI "Host".data r1 then
      let r2 := r1.drop 4
      let ws1 := r2.takeWhile isWs
      if ws1.isEmpty then none
      else
        let r3 := r2.dropWhile isWs
        let digits := r3.takeWhile Char.isDigit
        if digits.isEmpty then none
        else
          match r3.drop digits.length with
          | ':' :: '*' :: '*' :: r4 =>
            let afterW := r4.dropWhile isWs
            let withBracket : Option Str :=
              match afterW with
              | '[' :: rb =>
                let span := rb.takeWhile (· ≠ ']')
                (match rb.drop span.length with
                 | ']' :: r5 =>
                   let cap := r5.dropWhile isWs
                   if cap.isEmpty then none else some cap
                 | _ => none)
              | _ => none
            (match withBracket with
             | some cap => some cap
             | none => if afterW.isEmpty then none else some afterW)
          | _ => none
    else none
  | _ => none

/-- Leftmost match of the host-label pattern inside a line. -/
def hostLineText : Nat → Str → Str
  | 0, _ => []
  | _ + 1, [] => []
  | fuel + 1, c :: rest =>
    match matchHostLabelAt (c :: rest) with
    | some cap => jsTrim cap
    | none => hostLineText fuel rest

/-- Join with single spaces (`Array.prototype.join(' ')`). -/
def joinSpace : List Str → Str
  | [] => []
  | [t] => t
  | t :: rest => t ++ ' ' :: joinSpace rest

/-- Final token count of `countSpokenWords`: punctuation is replaced by
spaces (`[^\w\s]` → space) and the remaining whitespace-separated tokens are
counted. -/
def countSpokenTokens (s : Str) : Nat :=
  countWsTokens (s.map (fun c => if isWordChar c || isWs c then c else ' '))

/-- `BaseAgent.countSpokenWords`: clean the content, keep only dialogue
lines (`line.includes('**Host')` after a trim), extract the text after the
host label, and count the spoken tokens. -/
def countSpokenWords (content : Str) : Nat :=
  let s1 := removeHeaderLines (content.length + 1) content
  let s2 := emptyLinesWithPrefix "##".data s1
  let s3 := emptyLinesWithPrefix "###".data s2
  let s4 := emptyBulletLines s3
  let s5 := removeContinueTags (s4.length + 1) s4
  let s6 := removeBracketSpans (s5.length + 1) s5
  let s7 := removeMetaBlocks s6
  let dialogueLines :=
    (((splitOnNl s7).map jsTrim).filter (fun l => containsSub l "**Host".data)).map
      (fun l => hostLineText (l.length + 1) l)
  let texts := dialogueLines.filter (fun t => ¬ t.isEmpty)
  countSpokenTokens (joinSpace texts)

structure MarkdownArtifact where
  content : Str
  wordCount : Nat
  deriving DecidableEq, Repr

/-- `BaseAgent.extractMarkdown`: trims the content and records the
spoken-word count (the inline comment in the source reads
"Use spoken word counter for podcast scripts"). -/
def extractMarkdown (response : Str) : MarkdownArtifact :=
  { content := jsTrim response, wordCount := countSpokenWords response }

/-- `PlannerAgent.execute` spreads `extractMarkdown(response)` into its
result, so the Plan artifact's `wordCount` is the one `extractMarkdown`
computed. -/
def plannerArtifactWordCount (response : Str) : Nat :=
  (extractMarkdown response).wordCount

/-- `ResearchAgent.execute` spreads `extractMarkdown(response)` into its
result (`const result = { ...research, … }`). -/
def researchArtifactWordCount (response : Str) : Nat :=
  (extractMarkdown response).wordCount

/-- `OutlineAgent.execute` spreads `extractMarkdown(response)` into its
result (`const result = { ...outline, … }`). -/
def outlineArtifactWordCount (response : Str) : Nat :=
  (extractMarkdown response).wordCount

/-! ## §C2: word-count convergence loops
`ScriptAgent.generateScriptWithWordCount` and `EditorAgent.editForWordCount`:
a `for (attempt = 1; attempt <= maxAttempts; attempt++)` loop with
`maxAttempts = 3` that accepts a response within tolerance; after the loop
both functions call `chatComplete` once more and return that fresh
response. `oracle k` is the content of the model's reply to the (k+1)-th
`chatComplete` call (the corrective prompt growth is deterministic, so the
reply stream is a function of the call index). -/

/-- `calculateWordAccuracy(actualWords, targetWords)` (identical in both
agents): `Math.round(((actual - target) / target) * 10000) / 100`, a percent
with two decimals. It is represented exactly in hundredths of a percent
(the value before the final division by 100); every comparison against a
tolerance below is scaled by 100 accordingly. -/
def calculateWordAccuracy (actualWords targetWords : ℤ) : ℤ :=
  jsRoundInt ((actualWords - targetWords) * 10000) targetWords

/-- The shared attempt loop: `remaining` attempts left, `calls` calls made
so far. When the loop exhausts its attempts the source issues one more
`chatComplete` call and returns that response. Returns the accepted content
and the total number of `chatComplete` calls. -/
def wordCountLoop (oracle : Nat → Str) (targetWords tolerance : ℤ) :
    Nat → Nat → Str × Nat
  | 0, calls => (oracle calls, calls + 1)
  | remaining + 1, calls =>
    let response := oracle calls
    let wordCount := countSpokenWords response
    let accuracy := |calculateWordAccuracy wordCount targetWords|
    if accuracy ≤ tolerance * 100 then (response, calls + 1)
    else wordCountLoop oracle targetWords tolerance remaining (calls + 1)

/-- `ScriptAgent.generateScriptWithWordCount`: `maxAttempts = 3`, fixed 2 %
tolerance. -/
def generateScriptWithWordCount (oracle : Nat → Str) (targetWords : ℤ) :
    Str × Nat :=
  wordCountLoop oracle targetWords 2 3 0

/-- `EditorAgent.editForWordCount`: `maxAttempts = 3`, tolerance supplied by
the orchestrator (`config.performance.tolerancePercent = 5`). -/
def editForWordCount (oracle : Nat → Str) (targetWords tolerance : ℤ) :
    Str × Nat :=
  wordCountLoop oracle targetWords tolerance 3 0

/-! ## §C1: outline sections and the script fan-out
`OutlineAgent.parseOutlineSections` (errorHandler.js) and
`PodcastOrchestrator.generateScriptsInParallel` /
`PodcastOrchestrator.createBatches` (podcastOrchestrator.js). The outline
content is modelled as its list of lines (`splitOnNl`); the `/gm`-style
regexes of the source are line-oriented, and the lookaheads
(`\n## `, `\n# `, `### Chapter \d+:`, `## Closing Segment`,
`## Pacing Notes`) test line starts. -/

structure OSection where
  type : String
  number : Option Nat
  title : Str
  duration : Str
  content : Str
  deriving DecidableEq, Repr

/-- `parseInt` on a non-empty digit string. -/
def parseDigits (ds : Str) : Nat :=
  ds.foldl (fun acc c => acc * 10 + (c.toNat - '0'.toNat)) 0

/-- Trailing-whitespace removal (what `(.+?)\s*` leaves in the capture). -/
def dropTrailingWs (s : Str) : Str :=
  (s.reverse.dropWhile isWs).reverse

/-- The `(.+?)\s*\(([^)]+)\)` tail of the chapter-heading regex: scan for
the first `(` whose parenthesised group is non-empty, free of `)` and ends
the line, with a non-empty title before it. -/
def splitTitleDuration : Nat → Str → Str → Option (Str × Str)
  | 0, _, _ => none
  | _ + 1, _, [] => none
  | fuel + 1, seen, '(' :: rb =>
    let dur := rb.takeWhile (· ≠ ')')
    let title := dropTrailingWs seen
    if ¬ dur.isEmpty && rb.drop dur.length = [')'] && ¬ title.isEmpty then
      some (title, dur)
    else splitTitleDuration fuel (seen ++ ['(']) rb
  | fuel + 1, seen, c :: rest => splitTitleDuration fuel (seen ++ [c]) rest

/-- Leftmost match of `### Chapter (\d+): (.+?)\s*\(([^)]+)\)` inside one
line: chapter number, trimmed title, raw duration text. -/
def matchChapterHeading : Nat → Str → Option (Nat × Str × Str)
  | 0, _ => none
  | _ + 1, [] => none
  | fuel + 1, c :: rest =>
    (if "### Chapter ".data.isPrefixOf (c :: rest) then
      let r1 := (c :: rest).drop 12
      let digits := r1.takeWhile Char.isDigit
      if digits.isEmpty then none
      else
        match r1.drop digits.length with
        | ':' :: ' ' :: r2 =>
          (splitTitleDuration (r2.length + 1) [] r2).map
            (fun td => (parseDigits digits, td.1, td.2))
        | _ => none
    else none).elim
      (matchChapterHeading fuel rest)
      some

/-- The `(?=### Chapter \d+:|## Closing Segment|## Pacing Notes)` lookahead,
tested at a line start: note it only requires `### Chapter \d+:`, not a full
heading. -/
def chapterColonSomewhere : Nat → Str → Bool
  | 0, _ => false
  | _ + 1, [] => false
  | fuel + 1, c :: rest =>
    (if "### Chapter ".data.isPrefixOf (c :: rest) then
      let r1 := (c :: rest).drop 12
      let digits := r1.takeWhile Char.isDigit
      ¬ digits.isEmpty &&
        (match r1.drop digits.length with | ':' :: _ => true | _ => false)
    else false)
    || chapterColonSomewhere fuel rest

def isChapterBodyStop (l : Str) : Bool :=
  chapterColonSomewhere (l.length + 1) l
    || "## Closing Segment".data.isPrefixOf l
    || "## Pacing Notes".data.isPrefixOf l

/-- The `(?=\n## |\n# |$)` lookahead of the hook and closing captures,
tested at a line start. -/
def isHeadingStop (l : Str) : Bool :=
  "## ".data.isPrefixOf l || "# ".data.isPrefixOf l

/-- Capture the section body after a marker line: the lines up to (and
excluding) the first stop line, trimmed and re-joined. -/
def captureUntil (stop : Str → Bool) (lines : List Str) : Str :=
  jsTrim (joinNl (lines.takeWhile (fun l => ¬ stop l)))

/-- The opening-hook / closing-segment extraction
(`content.match(/## Opening Hook.*?\n([\s\S]*?)(?=\n## |\n# |$)/)` and its
closing twin): find the first line containing the marker — a following
newline must exist for `.*?\n` to match — and capture until a heading
line. -/
def extractMarkerSection (marker : Str) : List Str → Option Str
  | [] => none
  | [l] => if containsSub l marker then none else none
  | l :: rest =>
    if containsSub l marker then some (captureUntil isHeadingStop rest)
    else extractMarkerSection marker rest

/-- Collect all chapter sections, in scan order. A heading on the very last
line cannot match (the regex requires a newline after the `)`). Fuel is the
number of lines still to scan. -/
def collectChaptersAux : Nat → List Str → List OSection
  | 0, _ => []
  | _ + 1, [] => []
  | _ + 1, [_] => []
  | fuel + 1, l :: rest =>
    match matchChapterHeading (l.length + 1) l with
    | some (n, title, dur) =>
      let body := rest.takeWhile (fun l2 => ¬ isChapterBodyStop l2)
      { type := "chapter", number := some n, title := title,
        duration := jsTrim dur, content := jsTrim (joinNl body) }
        :: collectChaptersAux fuel (rest.drop body.length)
    | none => collectChaptersAux fuel rest

def collectChapters (lines : List Str) : List OSection :=
  collectChaptersAux lines.length lines

/-- `OutlineAgent.parseOutlineSections(content, expectedChapters)`: opening
hook (if present), the chapter sections, closing segment (if present).
`expectedChapters` only feeds a warning in the source and does not affect
the result. The per-chapter `parseChapterContent` sub-fields (discussion
points, narrative purpose) are not modelled: no claim depends on them. -/
def parseOutlineSections (content : Str) (_expectedChapters : Nat) :
    List OSection :=
  let lines := splitOnNl content
  let opening :=
    (extractMarkerSection "## Opening Hook".data lines).elim []
      (fun c => [{ type := "opening", number := none,
                   title := "Opening Hook".data,
                   duration := "30-60 seconds".data, content := c }])
  let closing :=
    (extractMarkerSection "## Closing Segment".data lines).elim []
      (fun c => [{ type := "closing", number := none,
                   title := "Closing Segment".data,
                   duration := "60-90 seconds".data, content := c }])
  opening ++ collectChapters lines ++ closing

structure ScriptInput where
  sectionContent : Str
  chapterNumber : Nat
  targetWords : ℤ
  style : String
  context : Str
  deriving DecidableEq, Repr

/-- `PodcastOrchestrator.createBatches(items, batchSize)`; the source is
only ever called with `batchSize = config.performance.maxConcurrentAgents ≥ 1`
(fuel is irrelevant then). -/
def createBatchesAux : Nat → List α → Nat → List (List α)
  | _, [], _ => []
  | 0, _, _ => []
  | fuel + 1, l, k => l.take k :: createBatchesAux fuel (l.drop k) k

def createBatches (items : List α) (batchSize : Nat) : List (List α) :=
  createBatchesAux items.length items batchSize

/-- `section.number || index + 1` (JavaScript falsiness: a missing number
and the number 0 both fall back to the in-batch index). -/
def chapterNumberOf (sec : OSection) (idx : Nat) : Nat :=
  match sec.number with
  | some n => if n = 0 then idx + 1 else n
  | none => idx + 1

/-- The invocation the orchestrator builds for one section of one batch. -/
def mkScriptInput (targetWords : ℤ) (sectionCount : Nat) (style : String)
    (context : Str) (idx : Nat) (sec : OSection) : ScriptInput :=
  { sectionContent := sec.content
    chapterNumber := chapterNumberOf sec idx
    targetWords := jsRoundInt targetWords (sectionCount : ℤ)
    style := style
    context := context }

/-- `PodcastOrchestrator.generateScriptsInParallel`: throws when the outline
has no sections (`none`); otherwise one Scripter invocation per outline
section, batched `maxConcurrentAgents = 5` at a time, results concatenated
in order. Returns the list of Scripter invocations. -/
def generateScriptsInParallel (sections : List OSection) (targetWords : ℤ)
    (style : String) (context : Str) : Option (List ScriptInput) :=
  if sections.isEmpty then none
  else
    some (((createBatches sections 5).map (fun batch =>
      batch.enum.map (fun p =>
        mkScriptInput targetWords sections.length style context p.1 p.2))).flatten)

/-! ## §C3: ToneAgent utterance parsing
`ToneAgent.parseUtterances`, `ToneAgent.splitIntoSentences`,
`ToneAgent.inferToneFromContent` and `ToneAgent.parseAlternativeFormat`.
Four strategies are tried in order; tone tags on the regex paths are taken
verbatim (lowercased, trimmed) from the bracketed text of the model output;
only the inference paths compute the tone from content keywords. -/

structure Utterance where
  index : Nat
  speaker : Str
  tone : Str
  text : Str
  wordCount : Nat
  estimatedDuration : ℤ
  deriving DecidableEq, Repr

/-- The protected-dot marker used by `splitIntoSentences`. -/
def dotToken : Str := "<!DOT!>".data

/-- `match.replace('.', '<!DOT!>')`: only the first dot of the matched
abbreviation is protected (so `i.e.` keeps its trailing dot). -/
def replaceFirstDot : Str → Str
  | [] => []
  | '.' :: r => dotToken ++ r
  | c :: r => c :: replaceFirstDot r

/-- The abbreviation alternatives of
`/\b(Mr|Mrs|Ms|Dr|Prof|Sr|Jr|vs|etc|i\.e|e\.g)\./gi`, in alternation
order. -/
def abbrevAlts : List Str :=
  ["Mr", "Mrs", "Ms", "Dr", "Prof", "Sr", "Jr", "vs", "etc", "i.e", "e.g"].map
    String.data

/-- Length of the abbreviation matched at the head of `s` (the alternation
tries the alternatives left to right; the abbreviation must be followed by a
dot). -/
def matchAbbrevAt (s : Str) : Option Nat :=
  abbrevAlts.findSome? (fun a =>
    if isPrefixOfCI a s &&
        (match s.drop a.length with | '.' :: _ => true | _ => false) then
      some a.length
    else none)

/-- Protect abbreviation dots: a match requires a word boundary (`\b`)
before the abbreviation; scanning resumes after the whole match. -/
def protectAbbrevs : Nat → Option Char → Str → Str
  | 0, _, s => s
  | _ + 1, _, [] => []
  | fuel + 1, prev, c :: rest =>
    let boundary := match prev with
      | none => true
      | some p => ¬ isWordChar p
    match (if boundary then matchAbbrevAt (c :: rest) else none) with
    | some altLen =>
      replaceFirstDot ((c :: rest).take (altLen + 1))
        ++ protectAbbrevs fuel (some '.') ((c :: rest).drop (altLen + 1))
    | none => c :: protectAbbrevs fuel (some c) rest

/-- Is the character one of the sentence enders `[.!?]` of the split
lookbehind. -/
def isSentenceEnd (c : Char) : Bool := c = '.' || c = '!' || c = '?'

/-- `split(/(?<=[.!?])\s+/)`: break at each maximal whitespace run whose
preceding character is a sentence ender. -/
def sentenceSplitAux : Nat → Option Char → Str → Str → List Str
  | 0, _, s, acc => [acc.reverse ++ s]
  | _ + 1, _, [], acc => [acc.reverse]
  | fuel + 1, prev, c :: r, acc =>
    if isWs c && (match prev with | some p => isSentenceEnd p | none => false) then
      let run := (c :: r).takeWhile isWs
      acc.reverse ::
        sentenceSplitAux fuel (some ' ') ((c :: r).drop run.length) []
    else sentenceSplitAux fuel (some c) r (c :: acc)

def sentenceSplit (s : Str) : List Str :=
  sentenceSplitAux (s.length + 1) none s []

/-- Restore the protected dots (`replace(/<!DOT!>/g, '.')`). -/
def restoreDots : Nat → Str → Str
  | 0, s => s
  | _ + 1, [] => []
  | fuel + 1, c :: rest =>
    if dotToken.isPrefixOf (c :: rest) then
      '.' :: restoreDots fuel ((c :: rest).drop dotToken.length)
    else c :: restoreDots fuel rest

/-- `split(/,\s+/)` of the long-sentence fallback: a comma followed by at
least one whitespace character separates chunks (the separator is
consumed). -/
def commaSplitAux : Nat → Str → Str → List Str
  | 0, s, acc => [acc.reverse ++ s]
  | _ + 1, [], acc => [acc.reverse]
  | fuel + 1, ',' :: r, acc =>
    if headIsWs r then
      acc.reverse :: commaSplitAux fuel (r.dropWhile isWs) []
    else commaSplitAux fuel r (',' :: acc)
  | fuel + 1, c :: r, acc => commaSplitAux fuel r (c :: acc)

def commaSplit (s : Str) : List Str := commaSplitAux (s.length + 1) s []

/-- The `reduce` of the fallback: every chunk except the last gets its
separating comma re-attached. -/
def reAddCommas : List Str → List Str
  | [] => []
  | [x] => [x]
  | x :: xs => (x ++ [',']) :: reAddCommas xs

/-- `ToneAgent.splitIntoSentences`. -/
def splitIntoSentences (text : Str) : List Str :=
  if (jsTrim text).isEmpty then []
  else
    let prot := protectAbbrevs (text.length + 1) none text
    let sentences :=
      (((sentenceSplit prot).map (fun s => restoreDots (s.length + 1) s)).map
        jsTrim).filter (fun s => ¬ s.isEmpty)
    if sentences.length = 1 && sentences.headI.length > 120 then
      let chunks := reAddCommas (commaSplit sentences.headI)
      if chunks.length > 1 && chunks.all (fun c => c.length < 80) then chunks
      else if sentences.isEmpty then [text] else sentences
    else if sentences.isEmpty then [text] else sentences

/-- `ToneAgent.inferToneFromContent`: keyword-driven tone inference on the
lowercased text. -/
def inferToneFromContent (text : Str) : Str :=
  let lt := lowerStr text
  let has := fun (p : String) => containsSub lt p.data
  if has "!" || has "amazing" || has "incredible" || has "wow" then
    "excited".data
  else if has "?" || has "wonder" || has "curious" then "curious".data
  else if has "however" || has "consider" || has "think" || has "reflect" then
    "reflective".data
  else if has "ha" || has "funny" || has "joke" then "humorous".data
  else if has "serious" || has "important" || has "critical" then
    "serious".data
  else if has "doubt" || has "really" || has "sure" then "skeptical".data
  else "calm".data

/-- `replace(/\n+/g, ' ')`. -/
def collapseNlRuns : Nat → Str → Str
  | 0, s => s
  | _ + 1, [] => []
  | fuel + 1, c :: rest =>
    if c = '\n' then ' ' :: collapseNlRuns fuel (rest.dropWhile (· = '\n'))
    else c :: collapseNlRuns fuel rest

/-- `replace(/\s+/g, ' ')`. -/
def collapseWsRuns : Nat → Str → Str
  | 0, s => s
  | _ + 1, [] => []
  | fuel + 1, c :: rest =>
    if isWs c then ' ' :: collapseWsRuns fuel (rest.dropWhile isWs)
    else c :: collapseWsRuns fuel rest

/-- The block-text cleanup shared by the regex strategies. -/
def cleanBlockText (t : Str) : Str :=
  jsTrim (collapseWsRuns (t.length + 1) (collapseNlRuns (t.length + 1) t))

/-- Push one utterance per non-blank sentence, threading the utterance
index; the speaker may depend on the index (legacy alternation). -/
def sentenceUtterances (speakerOf : Nat → Str) (tone : Str) :
    Nat → List Str → List Utterance × Nat
  | idx, [] => ([], idx)
  | idx, s :: rest =>
    if (jsTrim s).isEmpty then sentenceUtterances speakerOf tone idx rest
    else
      let u : Utterance :=
        { index := idx, speaker := speakerOf idx, tone := tone
          text := jsTrim s, wordCount := countWords s
          estimatedDuration := jsRoundInt ((countWords s : ℤ) * 60) 150 }
      let r := sentenceUtterances speakerOf tone (idx + 1) rest
      (u :: r.1, r.2)

/-- The `(?=\*\*Host [12]:\*\*|$)` lookahead of the host-tone regex. -/
def hostMarkerAhead (s : Str) : Bool :=
  "**Host 1:**".data.isPrefixOf s || "**Host 2:**".data.isPrefixOf s

/-- Lazy text capture: everything up to the next host marker (or the end),
returning the capture and the remainder the scan resumes from. -/
def textUntilHostMarker : Nat → Str → Str × Str
  | 0, s => (s, [])
  | _ + 1, [] => ([], [])
  | fuel + 1, c :: rest =>
    if hostMarkerAhead (c :: rest) then ([], c :: rest)
    else
      let r := textUntilHostMarker fuel rest
      (c :: r.1, r.2)

/-- One attempt of
`\*\*Host ([12]):\*\*\s*\[([^\]]+)\]\s+(.*?)(?=\*\*Host [12]:\*\*|$)`
anchored at the head of `s` (case sensitive, `/s`: the text may cross
newlines). -/
def matchHostToneAt (s : Str) : Option (Char × Str × Str × Str) :=
  if "**Host ".data.isPrefixOf s then
    match s.drop 7 with
    | d :: ':' :: '*' :: '*' :: r2 =>
      if d = '1' || d = '2' then
        match r2.dropWhile isWs with
        | '[' :: rb =>
          let tone := rb.takeWhile (· ≠ ']')
          if tone.isEmpty then none
          else
            match rb.drop tone.length with
            | ']' :: r4 =>
              let ws2 := r4.takeWhile isWs
              if ws2.isEmpty then none
              else
                let r5 := r4.drop ws2.length
                let tr := textUntilHostMarker (r5.length + 1) r5
                some (d, tone, tr.1, tr.2)
            | _ => none
        | _ => none
      else none
    | _ => none
  else none

/-- Global scan of the host-tone regex (scanning resumes at the lookahead
position, i.e. the regex `lastIndex`). -/
def scanHostToneBlocks : Nat → Str → List (Char × Str × Str)
  | 0, _ => []
  | _ + 1, [] => []
  | fuel + 1, c :: rest =>
    match matchHostToneAt (c :: rest) with
    | some (d, tone, text, remainder) =>
      (d, tone, text) :: scanHostToneBlocks fuel remainder
    | none => scanHostToneBlocks fuel rest

/-- Strategy (a): host-tone blocks to utterances. -/
def hostToneUtterances : List (Char × Str × Str) → Nat → List Utterance
  | [], _ => []
  | (d, tone, text) :: rest, idx =>
    let clean := cleanBlockText text
    if clean.isEmpty then hostToneUtterances rest idx
    else
      let r := sentenceUtterances (fun _ => "host".data ++ [d])
        (jsTrim (lowerStr tone)) idx (splitIntoSentences clean)
      r.1 ++ hostToneUtterances rest r.2

/-- The `(?=\*\*\[|$)` lookahead of the legacy tone-only regex. -/
def legacyMarkerAhead (s : Str) : Bool := "**[".data.isPrefixOf s

def textUntilLegacyMarker : Nat → Str → Str × Str
  | 0, s => (s, [])
  | _ + 1, [] => ([], [])
  | fuel + 1, c :: rest =>
    if legacyMarkerAhead (c :: rest) then ([], c :: rest)
    else
      let r := textUntilLegacyMarker fuel rest
      (c :: r.1, r.2)

/-- One attempt of `\*\*\[([^\]]+)\]\*\*\s+(.*?)(?=\*\*\[|$)` at the head
of `s`. -/
def matchLegacyAt (s : Str) : Option (Str × Str × Str) :=
  if "**[".data.isPrefixOf s then
    let rb := s.drop 3
    let tone := rb.takeWhile (· ≠ ']')
    if tone.isEmpty then none
    else
      match rb.drop tone.length with
      | ']' :: '*' :: '*' :: r3 =>
        let ws := r3.takeWhile isWs
        if ws.isEmpty then none
        else
          let r4 := r3.drop ws.length
          let tr := textUntilLegacyMarker (r4.length + 1) r4
          some (tone, tr.1, tr.2)
      | _ => none
  else none

def scanLegacyBlocks : Nat → Str → List (Str × Str)
  | 0, _ => []
  | _ + 1, [] => []
  | fuel + 1, c :: rest =>
    match matchLegacyAt (c :: rest) with
    | some (tone, text, remainder) =>
      (tone, text) :: scanLegacyBlocks fuel remainder
    | none => scanLegacyBlocks fuel rest

/-- Strategy (b): legacy blocks, speakers alternate per pushed utterance
(`utteranceIndex % 2 === 1`, read after the post-increment). -/
def legacySpeaker (i : Nat) : Str :=
  if (i + 1) % 2 = 1 then "host1".data else "host2".data

def legacyUtterances : List (Str × Str) → Nat → List Utterance
  | [], _ => []
  | (tone, text) :: rest, idx =>
    let clean := cleanBlockText text
    if clean.isEmpty then legacyUtterances rest idx
    else
      let r := sentenceUtterances legacySpeaker (jsTrim (lowerStr tone)) idx
        (splitIntoSentences clean)
      r.1 ++ legacyUtterances rest r.2

/-- Leftmost match of `/\*\*Host ([12]):\*\*\s+(.*)/` inside one line:
digit and the (possibly empty) rest of the line after the whitespace run. -/
def lineHostMatch : Nat → Str → Option (Char × Str)
  | 0, _ => none
  | _ + 1, [] => none
  | fuel + 1, c :: rest =>
    (if "**Host ".data.isPrefixOf (c :: rest) then
      match (c :: rest).drop 7 with
      | d :: ':' :: '*' :: '*' :: r2 =>
        if (d = '1' || d = '2') && headIsWs r2 then
          some (d, r2.dropWhile isWs)
        else none
      | _ => none
    else none).elim (lineHostMatch fuel rest) some

/-- Strategy (c): line-by-line host parsing with inferred tones. -/
def lineUtterances : List Str → Nat → List Utterance
  | [], _ => []
  | l :: rest, idx =>
    match lineHostMatch (l.length + 1) l with
    | some (d, text) =>
      let clean := jsTrim text
      if clean.isEmpty then lineUtterances rest idx
      else
        let r := sentenceUtterances (fun _ => "host".data ++ [d])
          (inferToneFromContent clean) idx (splitIntoSentences clean)
        r.1 ++ lineUtterances rest r.2
    | none => lineUtterances rest idx

/-- Last index of a newline inside a whitespace run (for the backtracking
of `\n\s*\n`). -/
def lastNlIdx (w : Str) : Option Nat :=
  match findSub w.reverse "\n".data with
  | some j => some (w.length - 1 - j)
  | none => none

/-- `split(/\n\s*\n/)`: a newline whose following whitespace run contains
another newline ends the paragraph at the last newline of the run. -/
def paragraphSplitAux : Nat → Str → Str → List Str
  | 0, s, acc => [acc.reverse ++ s]
  | _ + 1, [], acc => [acc.reverse]
  | fuel + 1, '\n' :: r, acc =>
    let w := r.takeWhile isWs
    (match lastNlIdx w with
     | some j => acc.reverse :: paragraphSplitAux fuel (r.drop (j + 1)) []
     | none => paragraphSplitAux fuel r ('\n' :: acc))
  | fuel + 1, c :: r, acc => paragraphSplitAux fuel r (c :: acc)

def paragraphSplit (s : Str) : List Str :=
  paragraphSplitAux (s.length + 1) s []

/-- The paragraph skip test of `parseAlternativeFormat`:
`p.startsWith('#') || (p.includes('**') && p.includes(':') && !p.includes('Host'))`. -/
def skipParagraph (p : Str) : Bool :=
  (match p with | '#' :: _ => true | _ => false)
    || (containsSub p "**".data && containsSub p ":".data
        && ¬ containsSub p "Host".data)

/-- The non-host paragraph fallback speaker
(`utteranceIndex % 2 === 0`, read after the post-increment). -/
def paragraphSpeaker (i : Nat) : Str :=
  if (i + 1) % 2 = 0 then "host1".data else "host2".data

/-- Paragraph pass of `parseAlternativeFormat`. -/
def paragraphUtterances : List Str → Nat → List Utterance
  | [], _ => []
  | p :: rest, idx =>
    if skipParagraph p then paragraphUtterances rest idx
    else
      match lineHostMatch (p.length + 1) p with
      | some (d, text) =>
        let clean := jsTrim text
        if clean.isEmpty then paragraphUtterances rest idx
        else
          let r := sentenceUtterances (fun _ => "host".data ++ [d])
            (inferToneFromContent clean) idx (splitIntoSentences clean)
          r.1 ++ paragraphUtterances rest r.2
      | none =>
        let u : Utterance :=
          { index := idx, speaker := paragraphSpeaker idx
            tone := inferToneFromContent p, text := p
            wordCount := countWords p
            estimatedDuration := jsRoundInt ((countWords p : ℤ) * 60) 150 }
        u :: paragraphUtterances rest (idx + 1)

/-- `ToneAgent.parseAlternativeFormat`: line-oriented host parsing on the
non-blank lines, then the paragraph fallback. -/
def parseAlternativeFormat (content : Str) : List Utterance :=
  let lines := (splitOnNl content).filter (fun l => ¬ (jsTrim l).isEmpty)
  let u1 := lineUtterances lines 0
  if ¬ u1.isEmpty then u1
  else
    let paragraphs :=
      ((paragraphSplit content).filter (fun p => ¬ (jsTrim p).isEmpty)).map
        (fun p => jsTrim (p.map (fun c => if c = '\n' then ' ' else c)))
    paragraphUtterances paragraphs 0

/-- The `## Enhanced Script Content` extraction
(`/## Enhanced Script Content\s*\n(.*?)(?=\n##|$)/s`): falls back to the
whole content when the section header is absent. -/
def enhancedScriptContent (content : Str) : Str :=
  match findSub content "## Enhanced Script Content".data with
  | none => content
  | some i =>
    let after := content.drop (i + "## Enhanced Script Content".data.length)
    let w := after.takeWhile isWs
    match lastNlIdx w with
    | none => content
    | some j =>
      let region := after.drop (j + 1)
      match findSub region "\n##".data with
      | some p => region.take p
      | none => region

/-- `ToneAgent.parseUtterances`: the four strategies in order. -/
def parseUtterances (content : Str) : List Utterance :=
  let scriptContent := enhancedScriptContent content
  let u1 := hostToneUtterances
    (scanHostToneBlocks (scriptContent.length + 1) scriptContent) 0
  if ¬ u1.isEmpty then u1
  else
    let u2 := legacyUtterances
      (scanLegacyBlocks (scriptContent.length + 1) scriptContent) 0
    if ¬ u2.isEmpty then u2
    else
      let u3 := lineUtterances (splitOnNl scriptContent) 0
      if ¬ u3.isEmpty then u3
      else parseAlternativeFormat scriptContent

/-- The closed tone set of the specification (§3 ToneScript). -/
def closedToneSet : List Str :=
  ["upbeat", "calm", "excited", "reflective", "suspenseful", "skeptical",
   "humorous", "serious", "curious", "confident"].map String.data

/-- The historical synonyms the specification says the parser accepts. -/
def acceptedToneSynonyms : List Str :=
  ["sad", "hopeful", "empathetic", "angry"].map String.data

/-! ## §C6: Editor post-validation
`EditorAgent.validateFinalScript` (editorAgent.js): every check only logs a
warning; the function always returns `true`. The log-only readability
analysis (`analyzeScript` Flesch score, average sentence length) does not
influence any returned value and is not modelled. -/

/-- Count the matches of `/\*\*Host [12]:\*\*\s*\[([^\]]+)\]/g`. -/
def countNewToneLabels : Nat → Str → Nat
  | 0, _ => 0
  | _ + 1, [] => 0
  | fuel + 1, c :: rest =>
    match
      (if "**Host ".data.isPrefixOf (c :: rest) then
        match (c :: rest).drop 7 with
        | d :: ':' :: '*' :: '*' :: r2 =>
          if d = '1' || d = '2' then
            match r2.dropWhile isWs with
            | '[' :: rb =>
              let inner := rb.takeWhile (· ≠ ']')
              if inner.isEmpty then none
              else
                match rb.drop inner.length with
                | ']' :: r4 => some r4
                | _ => none
            | _ => none
          else none
        | _ => none
      else none) with
    | some r4 => 1 + countNewToneLabels fuel r4
    | none => countNewToneLabels fuel rest

/-- Count the matches of `/\*\*\[([^\]]+)\]\*\*/g`. -/
def countOldToneLabels : Nat → Str → Nat
  | 0, _ => 0
  | _ + 1, [] => 0
  | fuel + 1, c :: rest =>
    match
      (if "**[".data.isPrefixOf (c :: rest) then
        let rb := (c :: rest).drop 3
        let inner := rb.takeWhile (· ≠ ']')
        if inner.isEmpty then none
        else
          match rb.drop inner.length with
          | ']' :: '*' :: '*' :: r3 => some r3
          | _ => none
      else none) with
    | some r3 => 1 + countOldToneLabels fuel r3
    | none => countOldToneLabels fuel rest

structure FinalScriptValidation where
  ok : Bool
  wordCountWarning : Bool
  shortWarning : Bool
  toneWarning : Bool
  productionReady : Bool
  deriving DecidableEq, Repr

/-- `EditorAgent.validateFinalScript(finalScript, input, …)`: computes the
warning conditions and the production-readiness indicator, and returns
`true` unconditionally (`ok`); no branch throws. -/
def validateFinalScript (fs : MarkdownArtifact) (targetWords : ℤ)
    (tolerance : ℤ) : FinalScriptValidation :=
  let lenientTolerance := max tolerance 15
  let wordAccuracy := |calculateWordAccuracy (fs.wordCount : ℤ) targetWords|
  let newToneLabels := countNewToneLabels (fs.content.length + 1) fs.content
  let oldToneLabels := countOldToneLabels (fs.content.length + 1) fs.content
  { ok := true
    wordCountWarning := decide (wordAccuracy > lenientTolerance * 100)
    shortWarning := decide (fs.wordCount < 25)
    toneWarning := decide (newToneLabels + oldToneLabels = 0)
    productionReady :=
      containsSub fs.content "**[".data
        && decide (fs.content.length > 100)
        && ! containsSub fs.content "TODO".data
        && ! containsSub fs.content "[INSERT".data }

/-! ## §C10: submission validation vs. per-agent input validation
`generateValidation` (route definitions), `PlannerAgent.validateInput`
(editorAgent.js) and `ResearchAgent.validateInput` (errorHandler.js).
The pipeline model below follows `generatePodcast`: planning runs first
(its `validateInput` precedes any model call), then the research step; the
Research agent is only executed when no fetched source content is
available, and `ResearchAgent.execute` calls `validateInput` before its
`chatComplete`. Model calls themselves are assumed to succeed (the claims
are about validation failures). -/

/-- `body('topic').isString().isLength({ min: 1, max: 500 })`. -/
def topicAccepted (topic : Str) : Bool :=
  1 ≤ topic.length && topic.length ≤ 500

/-- `PlannerAgent.validateInput`: non-blank topic, chapters in [1,10],
duration in [1,120], targetWords ≥ 50 (JavaScript falsiness of 0 is
subsumed by the range checks). -/
def plannerValidInput (topic : Str) (chapters durationMin targetWords : ℤ) :
    Bool :=
  ! (jsTrim topic).isEmpty
    && decide (1 ≤ chapters) && decide (chapters ≤ 10)
    && decide (1 ≤ durationMin) && decide (durationMin ≤ 120)
    && decide (50 ≤ targetWords)

/-- `ResearchAgent.validateInput`: non-blank topic of length at least 5. -/
def researchValidInput (topic : Str) : Bool :=
  ! (jsTrim topic).isEmpty && decide (¬ topic.length < 5)

/-- Model calls made by `ResearchAgent.execute`: `validateInput` throws
before the `chatComplete` call. -/
def researchAgentModelCalls (topic : Str) : Nat :=
  if researchValidInput topic then 1 else 0

/-- First failing stage of `generatePodcast` for an accepted brief, under
successful model calls: `targetWords = Math.round(durationMin * 150)`. -/
def pipelineFailureStage (topic : Str) (chapters durationMin : ℤ)
    (fetched : Option FetchedContent) : Option String :=
  let targetWords := durationMin * 150
  if ¬ plannerValidInput topic chapters durationMin targetWords then
    some "planning"
  else
    match fetched with
    | some _ => none
    | none =>
      if ¬ researchValidInput topic then some "research" else none

/-! ## Concrete sample data used by the claim theorems below. -/

/-- A conforming outline response: opening hook, one chapter, closing
segment (used to settle C1). -/
def c1SampleOutline : Str :=
  ("# Podcast Outline: Bicycles\n\n## Episode Overview\nA ride through history.\n\n"
    ++ "## Opening Hook (30-60 seconds)\n- A question about wheels\n\n"
    ++ "## Chapter Outlines\n\n### Chapter 1: Rise of Bicycles (2 minutes)\n"
    ++ "**Narrative Purpose**: Origins\n- Draisine days\n\n"
    ++ "## Closing Segment (60-90 seconds)\n- Farewell\n\n## Pacing Notes\n- Steady\n").data

/-- A reply stream whose every response counts one spoken word (always far
outside tolerance of a 100-word target); response `k` is distinguishable by
its trailing padding. -/
def c2Oracle (k : Nat) : Str :=
  "**Host 1:** Hi".data ++ List.replicate k 'x'

/-- A tone-annotated response whose bracketed tag is not in the closed tone
set (used to settle C3). -/
def c3CexContent : Str := "**Host 1:** [banana] Hello there.".data

def c3WitnessContent : Str := "**Host 1:** [calm] Hi.".data

def c3WitnessUtterance : Utterance :=
  { index := 0, speaker := "host1".data, tone := "calm".data
    text := "Hi.".data, wordCount := 1, estimatedDuration := 0 }

/-- Fetched source content of exactly 50 words (used to settle C5). -/
def c5SampleFetched : FetchedContent :=
  { title := "Bicycle History".data
    content := (String.intercalate " " (List.replicate 50 "word")).data
    source := "notes.md".data
    wordCount := 50 }

def c5Fallback : ResearchArtifact :=
  { content := "# Research Report".data, sources := [], wordCount := 0 }

/-- An outcome stream in which every call fails retryably (HTTP 500). -/
def c7Outcomes (_ : Nat) : CallOutcome := .failure (some 500)

def c7Jitter (_ : Nat) : ℚ := 1 / 2

/-! ## Claim theorems -/

/-- C4 counterexample: at `target = 100, actual = 82` the deviation is 18 %;
the claim's classification says `fair` (18 % ≤ 20 %), but
`calculateAccuracy` — whose fair bucket ends at `tolerance * 3 = 15 %` —
returns `poor`. -/
theorem c4_counterexample :
    claimAccuracyClassification 100 82 = "fair"
      ∧ calculateAccuracy 100 82 = "poor" := by
  constructor
  · unfold claimAccuracyClassification
    norm_num
  · unfold calculateAccuracy
    norm_num

/-- C4 (amended): the metadata accuracy classification maps
`d = |target − actual| / target` to excellent when `d ≤ 5 %`, good when
`5 % < d ≤ 10 %`, fair when `10 % < d ≤ 15 %` (not 20 %), and poor
otherwise. -/
theorem c4_accuracy_buckets (target actual : ℤ) (_ht : 0 < target) :
    calculateAccuracy target actual
      = amendedAccuracyClassification target actual := by
  have h100 : (0 : ℚ) < 100 := by norm_num
  have key : ∀ c : ℚ,
      (|(target : ℚ) - (actual : ℚ)| / (target : ℚ) * 100 ≤ c)
        ↔ (|(target : ℚ) - (actual : ℚ)| / (target : ℚ) ≤ c / 100) := by
    intro c
    rw [le_div_iff₀ h100]
  unfold calculateAccuracy amendedAccuracyClassification
  simp only [key]
  norm_num

/-- C4 witness: the amended classification agrees with the code at
`target = 100, actual = 90` (a 10 % deviation, bucket `good`). -/
theorem c4_witness :
    calculateAccuracy 100 90 = amendedAccuracyClassification 100 90 :=
  c4_accuracy_buckets 100 90 (by decide)

/-- C2: with a 100-word target and every reply counting one spoken word,
both convergence loops make a fourth `chatComplete` call after the three
failed attempts and return that fresh fourth response — not the last of the
three — contradicting the inline comment "use the last response" and the
claim. -/
theorem c2_fourth_call :
    (generateScriptWithWordCount c2Oracle 100).2 = 4
      ∧ (generateScriptWithWordCount c2Oracle 100).1 = c2Oracle 3
      ∧ (editForWordCount c2Oracle 100 5).2 = 4
      ∧ (editForWordCount c2Oracle 100 5).1 = c2Oracle 3
      ∧ c2Oracle 3 ≠ c2Oracle 2 := by
  refine ⟨by decide, by decide, by decide, by decide, by decide⟩

/-- C5: when a source is supplied and the fetch resolves (here with at
least 50 words), the research step performs zero model calls and the
ResearchNotes artifact is the deterministic wrapper: the fixed markdown
preamble, the fetched title, a blank line, and the fetched body verbatim. -/
theorem c5_source_grounding (src : Str)
    (fetchResult : Str → Option FetchedContent)
    (fallback : ResearchArtifact) (sc : FetchedContent)
    (hf : fetchResult src = some sc) (_hw : 50 ≤ sc.wordCount) :
    researchStep (some src) fetchResult fallback = (researchFromSource sc, 0)
      ∧ (researchFromSource sc).content
          = "# Research Based on Source Material\n\n## Source: ".data
              ++ sc.title ++ "\n\n".data ++ sc.content := by
  refine ⟨?_, rfl⟩
  simp [researchStep, hf]

/-- C5 witness: a concrete 50-word fetched document takes the zero-call
deterministic path. -/
theorem c5_source_grounding_witness :
    researchStep (some "notes.md".data) (fun _ => some c5SampleFetched)
        c5Fallback = (researchFromSource c5SampleFetched, 0)
      ∧ (researchFromSource c5SampleFetched).content
          = "# Research Based on Source Material\n\n## Source: ".data
              ++ c5SampleFetched.title ++ "\n\n".data
              ++ c5SampleFetched.content :=
  c5_source_grounding "notes.md".data (fun _ => some c5SampleFetched)
    c5Fallback c5SampleFetched rfl (by decide)

/-- C8 counterexample: cancelling a job that is already `cancelled` passes
the guard (which only checks `completed`/`failed`), so the stored
completion timestamp is overwritten with the new time and the call reports
success (HTTP 200) — the recorded state survives but the timestamp does
not. -/
theorem c8_counterexample :
    cancelGeneration
        (some { status := "cancelled",
                completedAt := some "2024-01-01T00:00:00.000Z" })
        "2024-06-01T12:00:00.000Z"
      = (some { status := "cancelled",
                completedAt := some "2024-06-01T12:00:00.000Z" }, 200)
      ∧ (some "2024-06-01T12:00:00.000Z" : Option String)
          ≠ some "2024-01-01T00:00:00.000Z" := by
  refine ⟨by decide, by decide⟩

/-- C8 (amended): cancellation is idempotent on `completed` and `failed`
jobs — the request is rejected with HTTP 400 and the job is untouched — but
a job already `cancelled` is re-cancelled: its state stays `cancelled`
while its `completedAt` is overwritten with the current time and the call
reports success again. -/
theorem c8_cancel_terminal (g : Generation) (now : String) :
    (g.status = "completed" ∨ g.status = "failed" →
        cancelGeneration (some g) now = (some g, 400))
      ∧ (g.status ≠ "completed" → g.status ≠ "failed" →
          cancelGeneration (some g) now
            = (some { status := "cancelled", completedAt := some now }, 200)) := by
  constructor
  · intro h
    rcases h with h | h <;> simp [cancelGeneration, h]
  · intro h1 h2
    simp [cancelGeneration, h1, h2]

/-- C8 witness: the amended behaviour at a concrete completed job and a
concrete cancelled job. -/
theorem c8_cancel_terminal_witness :
    cancelGeneration (some { status := "completed", completedAt := some "t0" })
        "t1" = (some { status := "completed", completedAt := some "t0" }, 400)
      ∧ cancelGeneration
          (some { status := "cancelled", completedAt := some "t0" }) "t1"
        = (some { status := "cancelled", completedAt := some "t1" }, 200) :=
  ⟨(c8_cancel_terminal { status := "completed", completedAt := some "t0" }
      "t1").1 (Or.inl rfl),
   (c8_cancel_terminal { status := "cancelled", completedAt := some "t0" }
      "t1").2 (by decide) (by decide)⟩

/-- C9 counterexample: for the markdown body `Plain overview text` — a
planning-style artifact with no dialogue lines — the recorded research
artifact word count is 0 (the spoken-word counter finds no `**Host` line),
while the raw-word counter the claim prescribes yields 3. -/
theorem c9_counterexample :
    researchArtifactWordCount "Plain overview text".data = 0
      ∧ countWords "Plain overview text".data = 3
      ∧ (0 : Nat) ≠ 3 := by
  refine ⟨by decide, by decide, by decide⟩

/-- C9 (amended): `extractMarkdown` applies the spoken-word counter
uniformly, so the word count recorded on the planning-side artifacts
(Plan, ResearchNotes, Outline) — like that of the dialogue artifacts — is
`countSpokenWords`, not the raw-word counter. -/
theorem c9_artifact_word_counts (response : Str) :
    plannerArtifactWordCount response = countSpokenWords response
      ∧ researchArtifactWordCount response = countSpokenWords response
      ∧ outlineArtifactWordCount response = countSpokenWords response
      ∧ (extractMarkdown response).wordCount = countSpokenWords response := by
  refine ⟨?_, ?_, ?_, ?_⟩ <;>
    simp only [plannerArtifactWordCount, researchArtifactWordCount,
      outlineArtifactWordCount, extractMarkdown]

/-- C6 counterexample: the final script `TODO` is 4 characters long and
contains the placeholder marker, yet `validateFinalScript` returns `true` —
the editing stage succeeds, it is not rejected. -/
theorem c6_counterexample :
    (extractMarkdown "TODO".data).content.length < 100
      ∧ containsSub (extractMarkdown "TODO".data).content "TODO".data = true
      ∧ (validateFinalScript (extractMarkdown "TODO".data) 750 5).ok = true := by
  refine ⟨by decide, by decide, by decide⟩

/-- C6 (amended): the Editor's post-validation never rejects; a final
script shorter than 100 characters or containing `TODO` or `[INSERT` only
clears the production-readiness indicator (and logs a warning) while the
validation still reports success. -/
theorem c6_validation_never_rejects (fs : MarkdownArtifact)
    (targetWords tolerance : ℤ) :
    (validateFinalScript fs targetWords tolerance).ok = true
      ∧ (fs.content.length < 100
            ∨ containsSub fs.content "TODO".data = true
            ∨ containsSub fs.content "[INSERT".data = true →
          (validateFinalScript fs targetWords tolerance).productionReady
            = false) := by
  constructor
  · rfl
  · intro h
    rcases h with h | h | h
    · have h2 : ¬ (fs.content.length > 100) := by omega
      simp [validateFinalScript, h2]
    · simp [validateFinalScript, h]
    · simp [validateFinalScript, h]

/-- C6 witness: the amended behaviour at the concrete `TODO` script. -/
theorem c6_validation_never_rejects_witness :
    (validateFinalScript (extractMarkdown "TODO".data) 750 5).ok = true
      ∧ (validateFinalScript (extractMarkdown "TODO".data) 750
          5).productionReady = false :=
  ⟨(c6_validation_never_rejects (extractMarkdown "TODO".data) 750 5).1,
   (c6_validation_never_rejects (extractMarkdown "TODO".data) 750 5).2
     (Or.inr (Or.inl (by decide)))⟩

/-- C10 counterexample: the accepted one-character topic `" "` (a single
space) does not fail at the research stage — the Planner's own validation
rejects the blank topic first, so the pipeline fails at the planning
stage. -/
theorem c10_counterexample :
    topicAccepted " ".data = true
      ∧ pipelineFailureStage " ".data 3 5 none = some "planning"
      ∧ ("planning" : String) ≠ "research" := by
  refine ⟨by decide, by decide, by decide⟩

/-- C10 (amended): for every accepted brief whose topic is 1–4 characters
long and not whitespace-only, with no fetched source, the pipeline fails at
the research stage: submission validation accepts any topic of length ≥ 1,
the Planner accepts any non-blank topic, and the Research agent rejects
every topic shorter than 5 characters before its model call (zero research
model calls). Whitespace-only accepted topics fail earlier, at planning. -/
theorem c10_short_topic_fails_at_research (topic : Str)
    (chapters durationMin : ℤ)
    (_h1 : topicAccepted topic = true) (h2 : topic.length ≤ 4)
    (h3 : (jsTrim topic).isEmpty = false)
    (h4 : 1 ≤ chapters) (h5 : chapters ≤ 10)
    (h6 : 1 ≤ durationMin) (h7 : durationMin ≤ 120) :
    pipelineFailureStage topic chapters durationMin none = some "research"
      ∧ researchAgentModelCalls topic = 0 := by
  have hp : plannerValidInput topic chapters durationMin (durationMin * 150)
      = true := by
    simp only [plannerValidInput, h3, Bool.not_false, Bool.true_and,
      Bool.and_eq_true, decide_eq_true_eq]
    omega
  have hr : researchValidInput topic = false := by
    simp only [researchValidInput, h3, Bool.not_false, Bool.true_and,
      decide_eq_false_iff_not]
    omega
  constructor
  · simp [pipelineFailureStage, hp, hr]
  · simp [researchAgentModelCalls, hr]

/-- C10 witness: the amended behaviour at the concrete topic `ab`. -/
theorem c10_short_topic_witness :
    pipelineFailureStage "ab".data 3 5 none = some "research"
      ∧ researchAgentModelCalls "ab".data = 0 :=
  c10_short_topic_fails_at_research "ab".data 3 5 (by decide) (by decide)
    (by decide) (by decide) (by decide) (by decide) (by decide)

/-- Batching preserves the elements: the concatenation of the batches is
the original list (for a positive batch size and enough fuel). -/
theorem createBatchesAux_flatten {α : Type} (k : Nat) (hk : 0 < k) :
    ∀ (fuel : Nat) (l : List α), l.length ≤ fuel →
      (createBatchesAux fuel l k).flatten = l := by
  intro fuel
  induction fuel with
  | zero =>
    intro l hl
    have : l = [] := List.length_eq_zero.mp (Nat.le_zero.mp hl)
    subst this
    rfl
  | succ n ih =>
    intro l hl
    cases l with
    | nil => rfl
    | cons a t =>
      have hdrop : ((a :: t).drop k).length ≤ n := by
        simp only [List.length_drop, List.length_cons]
        simp only [List.length_cons] at hl
        omega
      calc (createBatchesAux (n + 1) (a :: t) k).flatten
          = (a :: t).take k ++ (createBatchesAux n ((a :: t).drop k) k).flatten := by
            rfl
        _ = (a :: t).take k ++ (a :: t).drop k := by rw [ih _ hdrop]
        _ = a :: t := List.take_append_drop k (a :: t)

/-- Mapping an enumeration over each batch keeps the total length. -/
theorem flatten_map_enum_length {α β : Type} (batches : List (List α))
    (f : Nat × α → β) :
    ((batches.map (fun b => b.enum.map f)).flatten).length
      = batches.flatten.length := by
  induction batches with
  | nil => rfl
  | cons b bs ih =>
    simp only [List.map_cons, List.flatten_cons, List.length_append,
      List.length_map, List.enum_length, ih]

set_option maxRecDepth 10000 in
/-- C1 counterexample: the sample outline for a 1-chapter brief parses into
3 sections (opening hook, the chapter, closing segment); the orchestrator
then invokes the Scripter 3 times — not once — and each invocation receives
`round(150 / 3) = 50` target words, not `targetWords / chapters = 150`. -/
theorem c1_counterexample :
    (parseOutlineSections c1SampleOutline 1).map (fun s => s.type)
        = ["opening", "chapter", "closing"]
      ∧ ((generateScriptsInParallel (parseOutlineSections c1SampleOutline 1)
            150 "conversational" []).getD []).length = 3
      ∧ (3 : Nat) ≠ 1
      ∧ (∀ i ∈ (generateScriptsInParallel (parseOutlineSections c1SampleOutline 1)
            150 "conversational" []).getD [], i.targetWords = 50)
      ∧ (50 : ℤ) ≠ 150 := by
  refine ⟨by decide, by decide, by decide, by decide, by decide⟩

/-- C1 (amended): the orchestrator invokes the Scripter exactly once per
*parsed outline section* — the opening hook and closing segment included,
not once per chapter — so a job yields as many scripts as the outline has
sections, and each invocation receives a target of
`Math.round(targetWords / sections.length)`, not `targetWords` divided by
the brief's `chapters`. -/
theorem c1_scripts_per_section (sections : List OSection) (targetWords : ℤ)
    (style : String) (context : Str) (h : sections ≠ []) :
    ∃ l, generateScriptsInParallel sections targetWords style context = some l
      ∧ l.length = sections.length
      ∧ ∀ i ∈ l, i.targetWords = jsRoundInt targetWords (sections.length : ℤ) := by
  have he : sections.isEmpty = false := by
    cases sections with
    | nil => exact absurd rfl h
    | cons a t => rfl
  refine ⟨((createBatches sections 5).map (fun batch =>
      batch.enum.map (fun p =>
        mkScriptInput targetWords sections.length style context p.1 p.2))).flatten,
    ?_, ?_, ?_⟩
  · simp only [generateScriptsInParallel, he, Bool.false_eq_true, if_false]
  · rw [flatten_map_enum_length]
    unfold createBatches
    rw [createBatchesAux_flatten 5 (by norm_num) sections.length sections
      le_rfl]
  · intro i hi
    simp only [List.mem_flatten, List.mem_map] at hi
    obtain ⟨_, ⟨b, _, rfl⟩, hib⟩ := hi
    simp only [List.mem_map] at hib
    obtain ⟨p, _, rfl⟩ := hib
    rfl

set_option maxRecDepth 10000 in
/-- C1 witness: the amended statement at the sample outline (3 sections,
150 target words). -/
theorem c1_scripts_per_section_witness :
    ∃ l, generateScriptsInParallel (parseOutlineSections c1SampleOutline 1)
        150 "conversational" [] = some l
      ∧ l.length = (parseOutlineSections c1SampleOutline 1).length
      ∧ ∀ i ∈ l, i.targetWords
          = jsRoundInt 150 ((parseOutlineSections c1SampleOutline 1).length : ℤ) :=
  c1_scripts_per_section (parseOutlineSections c1SampleOutline 1) 150
    "conversational" [] (by decide)

/-- C7: each chat completion makes between 1 and 3 attempts; the delay
slept before retry attempt `n + 1` is `1000 · 2^(n−1) + jitter` ms (the
jitter being `Math.random() * 1000`); every call that was followed by
another one was a retryable failure — a 400/401/403 failure or a success is
never retried — and when every attempt fails retryably the full budget of
3 attempts is used. -/
theorem c7_retry_policy (outcomes : Nat → CallOutcome) (jitter : Nat → ℚ) :
    (1 ≤ (getChatCompletion outcomes jitter).calls
        ∧ (getChatCompletion outcomes jitter).calls ≤ 3)
      ∧ (getChatCompletion outcomes jitter).delays
          = (List.range ((getChatCompletion outcomes jitter).calls - 1)).map
              (fun n => 1000 * 2 ^ n + jitter (n + 1))
      ∧ (∀ k, k + 1 < (getChatCompletion outcomes jitter).calls →
          ∃ st, outcomes k = CallOutcome.failure st
            ∧ nonRetryableStatus st = false)
      ∧ ((∀ k, k < 3 → ∃ st, outcomes k = CallOutcome.failure st
            ∧ nonRetryableStatus st = false) →
          (getChatCompletion outcomes jitter).calls = 3) := by
  rcases h0 : outcomes 0 with c0 | st0
  · constructor
    · simp [getChatCompletion, chatLoop, h0]
    constructor
    · simp [getChatCompletion, chatLoop, h0]
    constructor
    · intro k hk
      simp [getChatCompletion, chatLoop, h0] at hk
    · intro hall
      obtain ⟨st, hst, -⟩ := hall 0 (by omega)
      rw [h0] at hst
      cases hst
  · rcases hnr0 : nonRetryableStatus st0 with - | -
    -- retryable first failure
    case false =>
      rcases h1 : outcomes 1 with c1 | st1
      · constructor
        · simp [getChatCompletion, chatLoop, h0, hnr0, h1]
        constructor
        · simp [getChatCompletion, chatLoop, h0, hnr0, h1, List.range_succ]
        constructor
        · intro k hk
          simp [getChatCompletion, chatLoop, h0, hnr0, h1] at hk
          have : k = 0 := by omega
          subst this
          exact ⟨st0, h0, hnr0⟩
        · intro hall
          obtain ⟨st, hst, -⟩ := hall 1 (by omega)
          rw [h1] at hst
          cases hst
      · rcases hnr1 : nonRetryableStatus st1 with - | -
        case false =>
          -- two retryable failures: the third attempt decides
          have hcalls :
              (getChatCompletion outcomes jitter).calls = 3 := by
            rcases h2 : outcomes 2 with c2 | st2
            · simp [getChatCompletion, chatLoop, h0, hnr0, h1, hnr1, h2]
            · rcases hnr2 : nonRetryableStatus st2 with - | -
              case false =>
                simp [getChatCompletion, chatLoop, h0, hnr0, h1, hnr1, h2,
                  hnr2]
              case true =>
                simp [getChatCompletion, chatLoop, h0, hnr0, h1, hnr1, h2,
                  hnr2]
          have hdelays :
              (getChatCompletion outcomes jitter).delays
                = [1000 * 2 ^ 0 + jitter 1, 1000 * 2 ^ 1 + jitter 2] := by
            rcases h2 : outcomes 2 with c2 | st2
            · simp [getChatCompletion, chatLoop, h0, hnr0, h1, hnr1, h2]
            · rcases hnr2 : nonRetryableStatus st2 with - | -
              case false =>
                simp [getChatCompletion, chatLoop, h0, hnr0, h1, hnr1, h2,
                  hnr2]
              case true =>
                simp [getChatCompletion, chatLoop, h0, hnr0, h1, hnr1, h2,
                  hnr2]
          refine ⟨by omega, ?_, ?_, fun _ => hcalls⟩
          · rw [hdelays, hcalls]
            simp [List.range_succ]
          · intro k hk
            rw [hcalls] at hk
            match k, hk with
            | 0, _ => exact ⟨st0, h0, hnr0⟩
            | 1, _ => exact ⟨st1, h1, hnr1⟩
        case true =>
          -- non-retryable second failure: break, no third call
          constructor
          · simp [getChatCompletion, chatLoop, h0, hnr0, h1, hnr1]
          constructor
          · simp [getChatCompletion, chatLoop, h0, hnr0, h1, hnr1,
              List.range_succ]
          constructor
          · intro k hk
            simp [getChatCompletion, chatLoop, h0, hnr0, h1, hnr1] at hk
            have : k = 0 := by omega
            subst this
            exact ⟨st0, h0, hnr0⟩
          · intro hall
            obtain ⟨st, hst, hr⟩ := hall 1 (by omega)
            rw [h1] at hst
            cases hst
            rw [hnr1] at hr
            cases hr
    -- non-retryable first failure: a single call
    case true =>
      constructor
      · simp [getChatCompletion, chatLoop, h0, hnr0]
      constructor
      · simp [getChatCompletion, chatLoop, h0, hnr0]
      constructor
      · intro k hk
        simp [getChatCompletion, chatLoop, h0, hnr0] at hk
      · intro hall
        obtain ⟨st, hst, hr⟩ := hall 0 (by omega)
        rw [h0] at hst
        cases hst
        rw [hnr0] at hr
        cases hr

/-- C7 witness: with every call failing retryably (HTTP 500) the budget of
3 attempts is exhausted. -/
theorem c7_retry_policy_witness :
    (getChatCompletion c7Outcomes c7Jitter).calls = 3 :=
  (c7_retry_policy c7Outcomes c7Jitter).2.2.2
    (fun _ _ => ⟨some 500, rfl, rfl⟩)

/-- The host-tone block matcher only ever yields the digits `1` or `2`. -/
theorem matchHostToneAt_digit {s : Str} {out : Char × Str × Str × Str}
    (h : matchHostToneAt s = some out) : out.1 = '1' ∨ out.1 = '2' := by
  unfold matchHostToneAt at h
  repeat' first
    | split at h
    | dsimp only at h
  all_goals try cases h
  all_goals simp_all

/-- Every block produced by the host-tone scan carries digit `1` or `2`. -/
theorem scanHostToneBlocks_digit :
    ∀ (fuel : Nat) (s : Str) (b : Char × Str × Str),
      b ∈ scanHostToneBlocks fuel s → b.1 = '1' ∨ b.1 = '2' := by
  intro fuel
  induction fuel with
  | zero => intro s b hb; cases hb
  | succ n ih =>
    intro s b hb
    cases s with
    | nil => cases hb
    | cons c rest =>
      rw [scanHostToneBlocks] at hb
      rcases hm : matchHostToneAt (c :: rest) with - | ⟨d, tone, text, rem⟩
      · rw [hm] at hb
        exact ih rest b hb
      · rw [hm] at hb
        rcases List.mem_cons.mp hb with rfl | hb2
        · exact matchHostToneAt_digit hm
        · exact ih rem b hb2

/-- Utterances pushed per sentence take their speaker from `speakerOf`. -/
theorem sentenceUtterances_speaker (speakerOf : Nat → Str) (tone : Str) :
    ∀ (sents : List Str) (idx : Nat) (u : Utterance),
      u ∈ (sentenceUtterances speakerOf tone idx sents).1 →
        ∃ i, u.speaker = speakerOf i := by
  intro sents
  induction sents with
  | nil => intro idx u hu; cases hu
  | cons s rest ih =>
    intro idx u hu
    rw [sentenceUtterances] at hu
    split at hu
    · exact ih idx u hu
    · rcases List.mem_cons.mp hu with rfl | hu2
      · exact ⟨idx, rfl⟩
      · exact ih (idx + 1) u hu2

/-- Speakers on the host-tone strategy are `host1` or `host2`. -/
theorem hostToneUtterances_speaker :
    ∀ (blocks : List (Char × Str × Str)) (idx : Nat) (u : Utterance),
      (∀ b ∈ blocks, b.1 = '1' ∨ b.1 = '2') →
      u ∈ hostToneUtterances blocks idx →
        u.speaker = "host1".data ∨ u.speaker = "host2".data := by
  intro blocks
  induction blocks with
  | nil => intro idx u _ hu; cases hu
  | cons b rest ih =>
    intro idx u hdig hu
    obtain ⟨d, tone, text⟩ := b
    rw [hostToneUtterances] at hu
    split at hu
    · exact ih idx u (fun b hb => hdig b (List.mem_cons_of_mem _ hb)) hu
    · rcases List.mem_append.mp hu with hu1 | hu2
      · obtain ⟨i, hi⟩ := sentenceUtterances_speaker _ _ _ _ u hu1
        rcases hdig (d, tone, text) (List.mem_cons_self _ _) with hd | hd <;>
          simp only at hd <;> subst hd
        · exact Or.inl (by rw [hi]; rfl)
        · exact Or.inr (by rw [hi]; rfl)
      · exact ih _ u (fun b hb => hdig b (List.mem_cons_of_mem _ hb)) hu2

/-- The legacy alternating speaker is `host1` or `host2`. -/
theorem legacySpeaker_mem (i : Nat) :
    legacySpeaker i = "host1".data ∨ legacySpeaker i = "host2".data := by
  unfold legacySpeaker
  split <;> simp

/-- Speakers on the legacy strategy are `host1` or `host2`. -/
theorem legacyUtterances_speaker :
    ∀ (blocks : List (Str × Str)) (idx : Nat) (u : Utterance),
      u ∈ legacyUtterances blocks idx →
        u.speaker = "host1".data ∨ u.speaker = "host2".data := by
  intro blocks
  induction blocks with
  | nil => intro idx u hu; cases hu
  | cons b rest ih =>
    intro idx u hu
    obtain ⟨tone, text⟩ := b
    rw [legacyUtterances] at hu
    split at hu
    · exact ih idx u hu
    · rcases List.mem_append.mp hu with hu1 | hu2
      · obtain ⟨i, hi⟩ := sentenceUtterances_speaker _ _ _ _ u hu1
        rw [hi]
        exact legacySpeaker_mem i
      · exact ih _ u hu2

/-- The line matcher only yields digits `1` or `2`. -/
theorem lineHostMatch_digit :
    ∀ (fuel : Nat) (l : Str) (out : Char × Str),
      lineHostMatch fuel l = some out → out.1 = '1' ∨ out.1 = '2' := by
  intro fuel
  induction fuel with
  | zero => intro l out h; cases h
  | succ n ih =>
    intro l out h
    cases l with
    | nil => cases h
    | cons c rest =>
      rw [lineHostMatch] at h
      rcases hm :
          (if "**Host ".data.isPrefixOf (c :: rest) then
            match (c :: rest).drop 7 with
            | d :: ':' :: '*' :: '*' :: r2 =>
              if (d = '1' || d = '2') && headIsWs r2 then
                some (d, r2.dropWhile isWs)
              else none
            | _ => none
          else none) with - | out2
      · rw [hm] at h
        simp only [Option.elim] at h
        exact ih rest out h
      · rw [hm] at h
        simp only [Option.elim] at h
        cases h
        revert hm
        split
        · split
          · split
            · intro hm
              injection hm with hm2
              subst hm2
              rename_i hguard
              simp only [Bool.and_eq_true, Bool.or_eq_true, decide_eq_true_eq]
                at hguard
              exact hguard.1
            · intro hm; cases hm
          all_goals intro hm; cases hm
        · intro hm; cases hm

/-- Speakers on the line-by-line strategy are `host1` or `host2`. -/
theorem lineUtterances_speaker :
    ∀ (lines : List Str) (idx : Nat) (u : Utterance),
      u ∈ lineUtterances lines idx →
        u.speaker = "host1".data ∨ u.speaker = "host2".data := by
  intro lines
  induction lines with
  | nil => intro idx u hu; cases hu
  | cons l rest ih =>
    intro idx u hu
    rw [lineUtterances] at hu
    rcases hm : lineHostMatch (l.length + 1) l with - | ⟨d, text⟩
    · rw [hm] at hu
      exact ih idx u hu
    · rw [hm] at hu
      dsimp only at hu
      split at hu
      · exact ih idx u hu
      · rcases List.mem_append.mp hu with hu1 | hu2
        · obtain ⟨i, hi⟩ := sentenceUtterances_speaker _ _ _ _ u hu1
          rcases lineHostMatch_digit _ _ _ hm with hd | hd <;>
            simp only at hd <;> subst hd
          · exact Or.inl (by rw [hi]; rfl)
          · exact Or.inr (by rw [hi]; rfl)
        · exact ih _ u hu2

/-- The paragraph-fallback speaker is `host1` or `host2`. -/
theorem paragraphSpeaker_mem (i : Nat) :
    paragraphSpeaker i = "host1".data ∨ paragraphSpeaker i = "host2".data := by
  unfold paragraphSpeaker
  split <;> simp

/-- Speakers on the paragraph fallback are `host1` or `host2`. -/
theorem paragraphUtterances_speaker :
    ∀ (paragraphs : List Str) (idx : Nat) (u : Utterance),
      u ∈ paragraphUtterances paragraphs idx →
        u.speaker = "host1".data ∨ u.speaker = "host2".data := by
  intro paragraphs
  induction paragraphs with
  | nil => intro idx u hu; cases hu
  | cons p rest ih =>
    intro idx u hu
    rw [paragraphUtterances] at hu
    split at hu
    · exact ih idx u hu
    · rcases hm : lineHostMatch (p.length + 1) p with - | ⟨d, text⟩
      · rw [hm] at hu
        rcases List.mem_cons.mp hu with rfl | hu2
        · exact paragraphSpeaker_mem idx
        · exact ih _ u hu2
      · rw [hm] at hu
        dsimp only at hu
        split at hu
        · exact ih idx u hu
        · rcases List.mem_append.mp hu with hu1 | hu2
          · obtain ⟨i, hi⟩ := sentenceUtterances_speaker _ _ _ _ u hu1
            rcases lineHostMatch_digit _ _ _ hm with hd | hd <;>
              simp only at hd <;> subst hd
            · exact Or.inl (by rw [hi]; rfl)
            · exact Or.inr (by rw [hi]; rfl)
          · exact ih _ u hu2

/-- Speakers from `parseAlternativeFormat` are `host1` or `host2`. -/
theorem parseAlternativeFormat_speaker (content : Str) (u : Utterance)
    (hu : u ∈ parseAlternativeFormat content) :
    u.speaker = "host1".data ∨ u.speaker = "host2".data := by
  unfold parseAlternativeFormat at hu
  dsimp only at hu
  split at hu
  · exact lineUtterances_speaker _ _ u hu
  · exact paragraphUtterances_speaker _ _ u hu

set_option maxRecDepth 10000 in
/-- C3 counterexample: on the strict host-tone regex path the bracketed tag
is taken verbatim from the model output — `[banana]` yields an utterance
whose tone is `banana`, which is neither in the closed tone set nor an
accepted synonym. -/
theorem c3_counterexample :
    ∃ u ∈ parseUtterances c3CexContent,
      u.speaker = "host1".data
        ∧ ¬ (u.tone ∈ closedToneSet ∨ u.tone ∈ acceptedToneSynonyms) := by
  decide

/-- C3 (amended): every utterance produced by any parsing strategy has a
speaker in `{host1, host2}`, and the content-inference strategies always
assign a tone from the closed tone set; but on the host-tone and legacy
regex paths the tone is the lowercased bracketed tag taken verbatim from
the model output, with no validation against the closed set. -/
theorem c3_speaker_and_inferred_tone :
    (∀ (content : Str) (u : Utterance), u ∈ parseUtterances content →
        u.speaker = "host1".data ∨ u.speaker = "host2".data)
      ∧ (∀ t : Str, inferToneFromContent t ∈ closedToneSet) := by
  constructor
  · intro content u hu
    unfold parseUtterances at hu
    dsimp only at hu
    split at hu
    · exact hostToneUtterances_speaker _ 0 u
        (fun b hb => scanHostToneBlocks_digit _ _ b hb) hu
    split at hu
    · exact legacyUtterances_speaker _ 0 u hu
    split at hu
    · exact lineUtterances_speaker _ 0 u hu
    · exact parseAlternativeFormat_speaker _ u hu
  · intro t
    unfold inferToneFromContent
    dsimp only
    split_ifs <;> decide

set_option maxRecDepth 10000 in
/-- C3 witness: the amended invariant at a concrete annotated line. -/
theorem c3_speaker_and_inferred_tone_witness :
    c3WitnessUtterance.speaker = "host1".data
      ∨ c3WitnessUtterance.speaker = "host2".data :=
  c3_speaker_and_inferred_tone.1 c3WitnessContent c3WitnessUtterance
    (by decide)
